import Mathlib

/-!
Shallow embedding of the rhythm-slicing core of the TGGame repository
(src/games/SaberGame.tsx and the dwell-select logic of src/App.tsx).

Conventions of the embedding:
* JavaScript numbers are modelled as exact rationals (`ℚ`); every arithmetic
  operation the embedded code performs is addition, subtraction,
  multiplication, division or comparison on small literals, so `ℚ` is the
  idealised semantics of the source.
* `Math.sqrt(d) < bound` (with `d ≥ 0`) is encoded by the equivalent
  `0 < bound ∧ d < bound ^ 2`, keeping the definitions executable.
* Purely cosmetic outputs (particles, debris, the `cutAngle` slice angle and
  the `velocityMagnitude` scalar, both consumed only by rendering) are
  omitted; no embedded control path depends on them.
* React `useRef` cells become fields of explicit state records; a render/HUD
  call (`setHudScore` …) has no game-state effect and is dropped.
-/

namespace Saber

/-! ### Constants (src/games/SaberGame.tsx lines 77-96) -/

def FOCAL_LENGTH : ℚ := 350
def BLOCK_SIZE : ℚ := 200
def GAME_SPEED : ℚ := 22
def SPAWN_Z : ℚ := 3500
def HIT_WINDOW_Z_NEAR : ℚ := -150
def HIT_WINDOW_Z_FAR : ℚ := 350
def GRID_X_SPACING : ℚ := 1000
def GRID_Y_SPACING : ℚ := 240

/-! ### Data model (SaberGame.tsx lines 12-75) -/

inductive BlockColor where
  | red
  | blue
deriving DecidableEq, Repr

inductive BlockType where
  | normal
  | bomb
deriving DecidableEq, Repr

inductive BlockDirection where
  | UP
  | DOWN
  | LEFT
  | RIGHT
  | DOT
deriving DecidableEq, Repr

/-- `SaberBlock` (a note). `cutAngle` is omitted: it is written only on a
confirmed hit and read only by the debris renderer. -/
structure SaberBlock where
  gridX : ℚ
  gridY : ℚ
  z : ℚ
  color : BlockColor
  type : BlockType
  direction : BlockDirection
  hit : Bool
  remove : Bool
deriving DecidableEq, Repr

inductive ObstacleType where
  | WALL_TOP
  | WALL_LEFT
  | WALL_RIGHT
deriving DecidableEq, Repr

structure Obstacle where
  type : ObstacleType
  z : ℚ
  duration : ℚ
  hit : Bool
  remove : Bool
deriving DecidableEq, Repr

/-- The position part of `SaberState` (a tracked hand); history and velocity
are kept by `updateHand` below, but hit judgement reads only `x`,`y`. -/
structure Hand where
  x : ℚ
  y : ℚ
deriving DecidableEq, Repr

/-- The mutable session scalars (`scoreRef`, `comboRef`, `energyRef`,
`hitNotesRef`, `totalNotesRef`, `isPlayingRef`).  All updates the source
applies to `energy` are integral, so `ℤ` is exact; note the source does NOT
clamp the obstacle-collision decrement, so `energy` must be allowed to go
negative in the model. -/
structure Session where
  score : ℕ
  combo : ℕ
  energy : ℤ
  hitNotes : ℕ
  totalNotes : ℕ
  isPlaying : Bool
deriving DecidableEq, Repr

/-! ### Session-level operations -/

/-- `finishGame` (lines 326-340), state part: sets `isPlayingRef` to false.
The grade it reports is `grade` below. -/
def finishGame (s : Session) : Session := { s with isPlaying := false }

/-- Grade computation inside `finishGame` (lines 327-336).  The decimal
literals 0.90, 0.85, 0.75, 0.60, 0.45 are the exact rationals used here. -/
def grade (hitNotes totalNotes : ℕ) : String :=
  if 0 < totalNotes then
    let accuracy : ℚ := (hitNotes : ℚ) / (totalNotes : ℚ)
    if accuracy ≥ 9/10 then "SSS"
    else if accuracy ≥ 17/20 then "SS"
    else if accuracy ≥ 3/4 then "S"
    else if accuracy ≥ 3/5 then "A"
    else if accuracy ≥ 9/20 then "B"
    else "C"
  else "D"

/-! ### Geometry (lines 421-428, 653-656, 735-738) -/

/-- `project` (lines 421-428): returns `(x, y, scale)`. -/
def project (x y z cx cy : ℚ) : ℚ × ℚ × ℚ :=
  let scale := FOCAL_LENGTH / (FOCAL_LENGTH + z)
  (cx + x * scale, cy + y * scale, scale)

/-- The `hitCheck` closure (lines 735-738):
`Math.sqrt((hand.x-proj.x)^2 + (hand.y-proj.y)^2) < size * 1.5`,
encoded without `sqrt` as `0 < size * 1.5 ∧ distSq < (size * 1.5) ^ 2`
(equivalent since the radicand is a square, hence nonnegative). -/
def hitCheck (hand : Hand) (px py size : ℚ) : Bool :=
  decide (0 < size * (3/2)) &&
    decide ((hand.x - px) ^ 2 + (hand.y - py) ^ 2 < (size * (3/2)) ^ 2)

/-! ### Per-block update (the body of `blocksRef.current.forEach`,
lines 649-788, with the pure-rendering parts dropped) -/

/-- One iteration of the block loop inside `updateLevel`: move the block,
judge hits (bomb / regular), then the pass-through miss/removal check.
Returns the updated session and block. -/
def blockTick (cx cy : ℚ) (left right : Hand) (s : Session) (b : SaberBlock) :
    Session × SaberBlock :=
  if b.remove then (s, b)
  else
    -- block.z -= GAME_SPEED
    let b1 : SaberBlock := { b with z := b.z - GAME_SPEED }
    let xOffset := (b1.gridX - 3/2) * GRID_X_SPACING
    let yOffset := (1 - b1.gridY) * GRID_Y_SPACING
    let p := project xOffset yOffset b1.z cx cy
    let size := BLOCK_SIZE * p.2.2
    let leftHit := hitCheck left p.1 p.2.1 size
    let rightHit := hitCheck right p.1 p.2.1 size
    -- hit-window judgement (lines 734-777)
    let sb2 : Session × SaberBlock :=
      if ¬b1.hit ∧ b1.z < HIT_WINDOW_Z_FAR ∧ b1.z > HIT_WINDOW_Z_NEAR then
        if b1.type = BlockType.bomb then
          if leftHit || rightHit then
            let e := max 0 (s.energy - 15)
            let s1 := { s with energy := e, combo := 0 }
            (if e ≤ 0 then finishGame s1 else s1, { b1 with hit := true })
          else (s, b1)
        else
          let success := (b1.color = BlockColor.red ∧ leftHit = true) ∨
                         (b1.color = BlockColor.blue ∧ rightHit = true)
          if success then
            ({ s with
                hitNotes := s.hitNotes + 1,
                score := s.score + (100 + if s.combo > 10 then 10 else 0),
                combo := s.combo + 1,
                energy := min 100 (s.energy + 4) },
             { b1 with hit := true })
          else (s, b1)
      else (s, b1)
    -- pass-through / miss check (lines 779-788)
    if sb2.2.z < -250 then
      let b3 := { sb2.2 with remove := true }
      if ¬sb2.2.hit ∧ sb2.2.type ≠ BlockType.bomb then
        let e := max 0 (sb2.1.energy - 8)
        let s3 := { sb2.1 with combo := 0, energy := e }
        (if e ≤ 0 then finishGame s3 else s3, b3)
      else (sb2.1, b3)
    else sb2

/-! ### Per-obstacle update (lines 794-840, rendering dropped) -/

/-- One iteration of the obstacle loop inside `updateLevel`.  Note the
source subtracts the collision penalty WITHOUT clamping
(`energyRef.current -= 10`) and does not call `finishGame` here. -/
def obstacleTick (headY bodyX : ℚ) (s : Session) (o : Obstacle) :
    Session × Obstacle :=
  let o1 : Obstacle := { o with z := o.z - GAME_SPEED }
  let so2 : Session × Obstacle :=
    if ¬o1.hit ∧ o1.z < 250 ∧ o1.z > -100 then
      let collided :=
        (o1.type = ObstacleType.WALL_TOP ∧ headY < 9/20) ∨
        (o1.type = ObstacleType.WALL_LEFT ∧ bodyX < 2/5) ∨
        (o1.type = ObstacleType.WALL_RIGHT ∧ bodyX > 3/5)
      if collided then
        ({ s with energy := s.energy - 10, combo := 0 }, { o1 with hit := true })
      else (s, o1)
    else (s, o1)
  if so2.2.z < -500 then (so2.1, { so2.2 with remove := true }) else so2

/-! ### Whole-level state and the per-frame / spawn events -/

/-- The entity collections plus session scalars (`blocksRef`,
`obstaclesRef` and the scalar refs). -/
structure GState where
  session : Session
  blocks : List SaberBlock
  obstacles : List Obstacle
deriving DecidableEq, Repr

/-- `spawnBlock` (lines 342-354): push a block at `SPAWN_Z`; a bomb's
direction is forced to `DOT`; `totalNotes` counts normal blocks only.
The randomly drawn direction of a normal block is the `dir` parameter. -/
def spawnBlock (gridX gridY : ℚ) (color : BlockColor) (ty : BlockType)
    (dir : BlockDirection) (g : GState) : GState :=
  { g with
    blocks := g.blocks ++
      [{ gridX := gridX, gridY := gridY, z := SPAWN_Z, color := color,
         type := ty,
         direction := if ty = BlockType.bomb then BlockDirection.DOT else dir,
         hit := false, remove := false }],
    session :=
      if ty = BlockType.normal then
        { g.session with totalNotes := g.session.totalNotes + 1 }
      else g.session }

/-- `spawnWall` (lines 356-364). -/
def spawnWall (ty : ObstacleType) (g : GState) : GState :=
  { g with obstacles := g.obstacles ++
      [{ type := ty, z := SPAWN_Z, duration := 400, hit := false,
         remove := false }] }

/-- Sequential traversal of an entity list threading the session through,
exactly as the source's `forEach` loops mutate the shared refs. -/
def processList (f : Session → α → Session × α) (s : Session) :
    List α → Session × List α
  | [] => (s, [])
  | a :: as =>
    let sa := f s a
    let rest := processList f sa.1 as
    (rest.1, sa.2 :: rest.2)

/-- The game-logic portion of one `updateLevel` frame (lines 612-841):
advance and judge every block, compact the block list, then advance and
judge every obstacle and compact the obstacle list. -/
def levelTick (cx cy : ℚ) (left right : Hand) (headY bodyX : ℚ)
    (g : GState) : GState :=
  let sb := processList (blockTick cx cy left right) g.session g.blocks
  let blocks := sb.2.filter (fun b => !b.remove)
  let so := processList (obstacleTick headY bodyX) sb.1 g.obstacles
  let obstacles := so.2.filter (fun o => !o.remove)
  { session := so.1, blocks := blocks, obstacles := obstacles }

/-- The events that can touch the playfield state during a session:
the scheduler's spawn calls and the simulation frame. -/
inductive Event where
  | spawnB (gridX gridY : ℚ) (c : BlockColor) (ty : BlockType)
      (dir : BlockDirection)
  | spawnW (ty : ObstacleType)
  | frame (cx cy : ℚ) (left right : Hand) (headY bodyX : ℚ)

def step (g : GState) : Event → GState
  | Event.spawnB gx gy c ty dir => spawnBlock gx gy c ty dir g
  | Event.spawnW ty => spawnWall ty g
  | Event.frame cx cy l r hy bx => levelTick cx cy l r hy bx g

def run (g : GState) (evs : List Event) : GState := evs.foldl step g

/-- The session/playfield reset performed by `startLevel`
(lines 296-306); `bpm` and `trackName` configure only the audio path and
do not influence the reset values. -/
def startLevel (bpm : ℚ) (trackName : String) (prev : GState) : GState :=
  let _ := bpm
  let _ := trackName
  let _ := prev
  { session := { score := 0, combo := 0, energy := 50, hitNotes := 0,
                 totalNotes := 0, isPlaying := true },
    blocks := [], obstacles := [] }

/-- The state every session starts from (what `startLevel` installs). -/
def initState : GState := startLevel 120 "" ⟨⟨0, 0, 0, 0, 0, false⟩, [], []⟩

/-- Reachability: a state arising from some event sequence after
`startLevel`. -/
def Reachable (g : GState) : Prop := ∃ evs : List Event, g = run initState evs

/-! ### The beat scheduler (lines 366-398), synthesized mode -/

/-- `secondsPerBeat` (line 367). -/
def secondsPerBeat (bpm : ℚ) : ℚ := 60 / bpm

/-- The per-subdivision increment `0.25 * secondsPerBeat` (line 395). -/
def subdivisionInc (bpm : ℚ) : ℚ := (1/4) * secondsPerBeat bpm

/-- `SchedulerClock`: `nextNoteTimeRef` and `current16thNoteRef`. -/
structure SchedState where
  nextNoteTime : ℚ
  current16th : ℕ
deriving DecidableEq, Repr

/-- One `scheduler` invocation (lines 366-398): drain every subdivision
whose nominal time is below `now + 0.1` (the `scheduleAhead` lookahead),
emitting the pair (subdivision index, nominal time) for each; `fuel`
bounds the loop and is irrelevant whenever it is at least the number of
due subdivisions (`schedulerRun_eq` below). -/
def schedulerRun (fuel : ℕ) (bpm now : ℚ) (st : SchedState) :
    List (ℕ × ℚ) × SchedState :=
  match fuel with
  | 0 => ([], st)
  | fuel + 1 =>
    if st.nextNoteTime < now + 1/10 then
      let ev := (st.current16th, st.nextNoteTime)
      let rest := schedulerRun fuel bpm now
        ⟨st.nextNoteTime + subdivisionInc bpm, (st.current16th + 1) % 16⟩
      (ev :: rest.1, rest.2)
    else ([], st)

/-- Number of subdivisions due in one invocation: the count of `k` with
`t + k * inc < now + 1/10`, expressed by a ceiling. -/
def dueCount (bpm now t : ℚ) : ℕ :=
  (⌈(now + 1/10 - t) / subdivisionInc bpm⌉).toNat

/-! ### Dwell selection (src/App.tsx `handleHoverLogic`, lines 170-194) -/

/-- The dwell-tracking state: `hoveredGame`/`hoveredAction` (the tracked
item), `hoverStartTimeRef` (nullable start timestamp) and the
`hoverProgress` React state. -/
structure DwellState (T : Type) where
  current : Option T
  start : Option ℚ
  progress : ℚ
deriving DecidableEq, Repr

/-- JavaScript truthiness of `hoverStartTimeRef.current : number | null`:
`null` and `0` are both falsy (the source guards with
`if (hoverStartTimeRef.current)`). -/
def startTruthy (st : Option ℚ) : Bool :=
  match st with
  | none => false
  | some v => decide (v ≠ 0)

/-- `handleHoverLogic` (App.tsx lines 170-194) for a non-null candidate
`newItem` at time `now` (ms): returns the new dwell state and the committed
item (the argument `onComplete` receives), if any.  The dwell duration is
the literal 1500 ms. -/
def handleHoverLogic (T : Type) [DecidableEq T] (now : ℚ) (newItem : T)
    (d : DwellState T) : DwellState T × Option T :=
  if some newItem = d.current then
    if startTruthy d.start then
      let st := d.start.getD 0
      let elapsed := now - st
      let progress := min (elapsed / 1500 * 100) 100
      if progress ≥ 100 then
        -- onComplete(newItem); setHoverProgress(0); setItem(null); start := null
        (⟨none, none, 0⟩, some newItem)
      else ({ d with progress := progress }, none)
    else (d, none)
  else
    -- setItem(newItem); start := performance.now(); setHoverProgress(0)
    ({ current := some newItem, start := some now, progress := 0 }, none)

/-- `resetHoverLogic` (App.tsx lines 196-202): called when no candidate is
under the cursor. -/
def resetHoverLogic (T : Type) [DecidableEq T] (d : DwellState T) :
    DwellState T :=
  if d.current.isSome then ⟨none, none, 0⟩ else d

/-- A continuous hover run over the fixed candidate `c`: apply
`handleHoverLogic` at each timestamp in order, collecting the commits. -/
def hoverRun (T : Type) [DecidableEq T] (c : T) (times : List ℚ)
    (d : DwellState T) : DwellState T × List T :=
  match times with
  | [] => (d, [])
  | t :: ts =>
    let r := handleHoverLogic T t c d
    let rest := hoverRun T c ts r.1
    (rest.1, (r.2.elim [] (fun x => [x])) ++ rest.2)

/-! ### Hand tracking -/

/-- A pose landmark as consumed by the code: normalized position and a
visibility score. -/
structure Landmark where
  x : ℚ
  y : ℚ
  visibility : ℚ
deriving DecidableEq, Repr

/-- Full per-hand tracking state of SaberGame (`SaberState` minus the
cosmetic `velocityMagnitude`). -/
structure SaberHand where
  x : ℚ
  y : ℚ
  history : List (ℚ × ℚ)
  velX : ℚ
  velY : ℚ
deriving DecidableEq, Repr

/-- `updateHand` (SaberGame.tsx lines 475-485): if the landmark exists and
its visibility is strictly above 0.5, mirror the x axis, scale to canvas
size, record velocity, and set the position DIRECTLY to the target (no
smoothing factor); otherwise leave the whole state unchanged. -/
def updateHand (canvasW canvasH : ℚ) (lm : Option Landmark)
    (st : SaberHand) : SaberHand :=
  match lm with
  | some p =>
    if p.visibility > 1/2 then
      let x := (1 - p.x) * canvasW
      let y := p.y * canvasH
      let hist := st.history ++ [(x, y)]
      { x := x, y := y,
        velX := x - st.x, velY := y - st.y,
        history := if hist.length > 6 then hist.drop (hist.length - 6) else hist }
    else st
  | none => st

/-- Menu-cursor smoothing in App.tsx (`updateMotionControl`,
lines 110-127): pick the right index tip if visible > 0.5, else the left;
if one is active, smooth toward the mirrored target with factor 0.2 and
report the cursor visible, else leave the position unchanged. -/
def updateCursor (w h : ℚ) (lm19 lm20 : Option Landmark) (cur : ℚ × ℚ) :
    (ℚ × ℚ) × Bool :=
  let pick (l : Option Landmark) : Option Landmark :=
    match l with
    | some p => if p.visibility > 1/2 then some p else none
    | none => none
  let active := (pick lm20).elim (pick lm19) some
  match active with
  | some p =>
    let targetX := (1 - p.x) * w
    let targetY := p.y * h
    ((cur.1 + (targetX - cur.1) * (1/5), cur.2 + (targetY - cur.2) * (1/5)),
     true)
  | none => (cur, false)

/-! ### Observable per-block events (named forms of the conditions inside
`blockTick`, for stating the judgement claims) -/

/-- The block after this frame's depth advance (`block.z -= GAME_SPEED`). -/
def moved (b : SaberBlock) : SaberBlock := { b with z := b.z - GAME_SPEED }

/-- Projected screen position and scale of a block (lines 653-655). -/
def blockProj (cx cy : ℚ) (b : SaberBlock) : ℚ × ℚ × ℚ :=
  project ((b.gridX - 3/2) * GRID_X_SPACING) ((1 - b.gridY) * GRID_Y_SPACING)
    b.z cx cy

/-- Whether `hand` is close enough to slice block `b` (lines 735-738). -/
def blockHitBy (cx cy : ℚ) (hand : Hand) (b : SaberBlock) : Bool :=
  let p := blockProj cx cy b
  hitCheck hand p.1 p.2.1 (BLOCK_SIZE * p.2.2)

/-- The hittable depth window (line 734). -/
def InWindow (b : SaberBlock) : Prop :=
  b.z < HIT_WINDOW_Z_FAR ∧ b.z > HIT_WINDOW_Z_NEAR

/-- This frame confirms a miss of `b` (lines 779-787): an untouched
normal block passes the `-250` terminal plane. -/
def MissOccurs (b : SaberBlock) : Prop :=
  b.remove = false ∧ b.hit = false ∧ b.type = BlockType.normal ∧
    (moved b).z < -250

/-- This frame registers a hazard (bomb) hit on `b` (lines 743-751). -/
def BombHitOccurs (cx cy : ℚ) (left right : Hand) (b : SaberBlock) : Prop :=
  b.remove = false ∧ b.hit = false ∧ b.type = BlockType.bomb ∧
    InWindow (moved b) ∧
    (blockHitBy cx cy left (moved b) = true ∨
     blockHitBy cx cy right (moved b) = true)

/-- This frame registers a confirmed regular hit on `b` (lines 752-775). -/
def RegularHitOccurs (cx cy : ℚ) (left right : Hand) (b : SaberBlock) : Prop :=
  b.remove = false ∧ b.hit = false ∧ b.type = BlockType.normal ∧
    InWindow (moved b) ∧
    ((b.color = BlockColor.red ∧ blockHitBy cx cy left (moved b) = true) ∨
     (b.color = BlockColor.blue ∧ blockHitBy cx cy right (moved b) = true))

/-- `blockTick` written through the named helpers: sanity equation used by
the judgement proofs. -/
theorem blockTick_def (cx cy : ℚ) (left right : Hand) (s : Session)
    (b : SaberBlock) :
    blockTick cx cy left right s b =
      (if b.remove then (s, b)
       else
        let b1 := moved b
        let leftHit := blockHitBy cx cy left b1
        let rightHit := blockHitBy cx cy right b1
        let sb2 : Session × SaberBlock :=
          if ¬b1.hit ∧ b1.z < HIT_WINDOW_Z_FAR ∧ b1.z > HIT_WINDOW_Z_NEAR then
            if b1.type = BlockType.bomb then
              if leftHit || rightHit then
                let e := max 0 (s.energy - 15)
                let s1 := { s with energy := e, combo := 0 }
                (if e ≤ 0 then finishGame s1 else s1, { b1 with hit := true })
              else (s, b1)
            else
              let success := (b1.color = BlockColor.red ∧ leftHit = true) ∨
                             (b1.color = BlockColor.blue ∧ rightHit = true)
              if success then
                ({ s with
                    hitNotes := s.hitNotes + 1,
                    score := s.score + (100 + if s.combo > 10 then 10 else 0),
                    combo := s.combo + 1,
                    energy := min 100 (s.energy + 4) },
                 { b1 with hit := true })
              else (s, b1)
          else (s, b1)
        if sb2.2.z < -250 then
          let b3 := { sb2.2 with remove := true }
          if ¬sb2.2.hit ∧ sb2.2.type ≠ BlockType.bomb then
            let e := max 0 (sb2.1.energy - 8)
            let s3 := { sb2.1 with combo := 0, energy := e }
            (if e ≤ 0 then finishGame s3 else s3, b3)
          else (sb2.1, b3)
        else sb2) := by
  rfl

/-! ## Claim theorems -/

/-- C10: starting a new level, for every BPM and track name and regardless
of the previous state, reinitializes the session to score 0, combo 0,
energy 50 (the midpoint), hitNotes 0, totalNotes 0, and empty block and
obstacle collections. -/
theorem startLevel_resets (bpm : ℚ) (trackName : String) (prev : GState) :
    (startLevel bpm trackName prev).session.score = 0 ∧
    (startLevel bpm trackName prev).session.combo = 0 ∧
    (startLevel bpm trackName prev).session.energy = 50 ∧
    (startLevel bpm trackName prev).session.hitNotes = 0 ∧
    (startLevel bpm trackName prev).session.totalNotes = 0 ∧
    (startLevel bpm trackName prev).session.isPlaying = true ∧
    (startLevel bpm trackName prev).blocks = [] ∧
    (startLevel bpm trackName prev).obstacles = [] ∧
    startLevel bpm trackName prev = initState := by
  refine ⟨rfl, rfl, rfl, rfl, rfl, rfl, rfl, rfl, rfl⟩

set_option maxHeartbeats 1600000 in
/-- C3: with `totalNotes > 0` and accuracy `hitNotes / totalNotes`, the
grade is SSS iff accuracy ≥ 0.90, SS iff 0.85 ≤ accuracy < 0.90, S iff
0.75 ≤ accuracy < 0.85, A iff 0.60 ≤ accuracy < 0.75, B iff
0.45 ≤ accuracy < 0.60, and C otherwise; in particular accuracy exactly
0.90 gives SSS and exactly 0.85 gives SS. -/
theorem grade_thresholds (h t : ℕ) (ht : 0 < t) :
    (grade h t = "SSS" ↔ 9/10 ≤ (h : ℚ) / t) ∧
    (grade h t = "SS" ↔ 17/20 ≤ (h : ℚ) / t ∧ (h : ℚ) / t < 9/10) ∧
    (grade h t = "S" ↔ 3/4 ≤ (h : ℚ) / t ∧ (h : ℚ) / t < 17/20) ∧
    (grade h t = "A" ↔ 3/5 ≤ (h : ℚ) / t ∧ (h : ℚ) / t < 3/4) ∧
    (grade h t = "B" ↔ 9/20 ≤ (h : ℚ) / t ∧ (h : ℚ) / t < 3/5) ∧
    (grade h t = "C" ↔ (h : ℚ) / t < 9/20) := by
  unfold grade
  rw [if_pos ht]
  dsimp only
  split_ifs with h1 h2 h3 h4 h5 <;>
    refine ⟨?_, ?_, ?_, ?_, ?_, ?_⟩ <;>
    constructor <;>
    intro hx <;>
    first
      | rfl
      | (exact ⟨by linarith, by linarith⟩)
      | linarith
      | (exfalso; simp at hx)

/-- Witness for C3 at `hitNotes = 9`, `totalNotes = 10` (accuracy exactly
0.90, graded SSS). -/
theorem grade_thresholds_witness :
    grade 9 10 = "SSS" := by
  have := (grade_thresholds 9 10 (by norm_num)).1
  rw [this]
  norm_num

/-- The hit-window judgement phase of `blockTick` (lines 734-777), applied
to the already-moved block. -/
def judgePhase (cx cy : ℚ) (left right : Hand) (s : Session)
    (b1 : SaberBlock) : Session × SaberBlock :=
  if ¬b1.hit ∧ b1.z < HIT_WINDOW_Z_FAR ∧ b1.z > HIT_WINDOW_Z_NEAR then
    if b1.type = BlockType.bomb then
      if blockHitBy cx cy left b1 || blockHitBy cx cy right b1 then
        let e := max 0 (s.energy - 15)
        let s1 := { s with energy := e, combo := 0 }
        (if e ≤ 0 then finishGame s1 else s1, { b1 with hit := true })
      else (s, b1)
    else
      if (b1.color = BlockColor.red ∧ blockHitBy cx cy left b1 = true) ∨
         (b1.color = BlockColor.blue ∧ blockHitBy cx cy right b1 = true) then
        ({ s with
            hitNotes := s.hitNotes + 1,
            score := s.score + (100 + if s.combo > 10 then 10 else 0),
            combo := s.combo + 1,
            energy := min 100 (s.energy + 4) },
         { b1 with hit := true })
      else (s, b1)
  else (s, b1)

/-- The pass-through / miss phase of `blockTick` (lines 779-788). -/
def missPhase (sb : Session × SaberBlock) : Session × SaberBlock :=
  if sb.2.z < -250 then
    if ¬sb.2.hit ∧ sb.2.type ≠ BlockType.bomb then
      let e := max 0 (sb.1.energy - 8)
      let s3 := { sb.1 with combo := 0, energy := e }
      (if e ≤ 0 then finishGame s3 else s3, { sb.2 with remove := true })
    else (sb.1, { sb.2 with remove := true })
  else sb

/-- `blockTick` decomposed into its two phases. -/
theorem blockTick_phases (cx cy : ℚ) (left right : Hand) (s : Session)
    (b : SaberBlock) :
    blockTick cx cy left right s b =
      if b.remove then (s, b)
      else missPhase (judgePhase cx cy left right s (moved b)) := by
  rfl

/-- Every energy write in the judgement phase is clamped into [0,100]. -/
theorem judgePhase_energy_bounds (cx cy : ℚ) (left right : Hand)
    (s : Session) (b1 : SaberBlock) (h0 : 0 ≤ s.energy)
    (h1 : s.energy ≤ 100) :
    0 ≤ (judgePhase cx cy left right s b1).1.energy ∧
    (judgePhase cx cy left right s b1).1.energy ≤ 100 := by
  unfold judgePhase finishGame
  dsimp only
  split_ifs <;> constructor <;> simp <;> omega

/-- Every energy write in the miss phase is clamped into [0,100]. -/
theorem missPhase_energy_bounds (sb : Session × SaberBlock)
    (h0 : 0 ≤ sb.1.energy) (h1 : sb.1.energy ≤ 100) :
    0 ≤ (missPhase sb).1.energy ∧ (missPhase sb).1.energy ≤ 100 := by
  unfold missPhase finishGame
  dsimp only
  split_ifs <;> constructor <;> (try simp) <;> omega

/-- C1 (amended): every energy update performed by the per-block judgement
— regular-note hit (+4 capped at 100), hazard hit (−15 clamped at 0), and
note miss (−8 clamped at 0) — keeps energy within [0,100].  The
obstacle-collision update is NOT clamped; see the counterexample theorem,
which reaches energy −10. -/
theorem energy_clamped_blockTick (cx cy : ℚ) (left right : Hand)
    (s : Session) (b : SaberBlock) (h0 : 0 ≤ s.energy)
    (h1 : s.energy ≤ 100) :
    0 ≤ (blockTick cx cy left right s b).1.energy ∧
    (blockTick cx cy left right s b).1.energy ≤ 100 := by
  rw [blockTick_phases]
  split_ifs
  · exact ⟨h0, h1⟩
  · have hj := judgePhase_energy_bounds cx cy left right s (moved b) h0 h1
    exact missPhase_energy_bounds _ hj.1 hj.2

/-- Witness for C1 (amended): a bomb hit at energy 50 stays in [0,100]
(the updated energy is 35). -/
theorem energy_clamped_blockTick_witness :
    0 ≤ (blockTick 0 0 ⟨500, 240⟩ ⟨0, 0⟩ ⟨0, 0, 50, 0, 0, true⟩
          ⟨2, 0, 22, BlockColor.red, BlockType.bomb, BlockDirection.DOT,
           false, false⟩).1.energy ∧
    (blockTick 0 0 ⟨500, 240⟩ ⟨0, 0⟩ ⟨0, 0, 50, 0, 0, true⟩
          ⟨2, 0, 22, BlockColor.red, BlockType.bomb, BlockDirection.DOT,
           false, false⟩).1.energy ≤ 100 :=
  energy_clamped_blockTick 0 0 ⟨500, 240⟩ ⟨0, 0⟩ _ _ (by norm_num) (by norm_num)

/-! ### A reachable unclamped-energy state (for the C1 counterexample):
six left walls spawned together, body leaning left; after 148 frames all
six reach the collision window in the same frame and each subtracts 10
from energy with no clamp. -/

/-- A `WALL_LEFT` obstacle at depth `z` (as produced by `spawnWall`). -/
def wallObs (z : ℚ) : Obstacle :=
  ⟨ObstacleType.WALL_LEFT, z, 400, false, false⟩

/-- One simulation frame with both hands at the origin and the body at
`x = 0.3` (leaning left, `< 0.4`). -/
def frameEv : Event := Event.frame 0 0 ⟨0, 0⟩ ⟨0, 0⟩ (1/2) (3/10)

/-- Spawn six left walls, then run 148 frames. -/
def obstacleTrace : List Event :=
  List.replicate 6 (Event.spawnW ObstacleType.WALL_LEFT) ++
    List.replicate 148 frameEv

theorem run_append (g : GState) (l1 l2 : List Event) :
    run g (l1 ++ l2) = run (run g l1) l2 :=
  List.foldl_append step g l1 l2

theorem run_spawn_six :
    run initState (List.replicate 6 (Event.spawnW ObstacleType.WALL_LEFT)) =
      ⟨initState.session, [], List.replicate 6 (wallObs SPAWN_Z)⟩ := by
  rfl

/-- While a left wall is still beyond the collision window, a frame only
advances its depth. -/
theorem obstacleTick_far (z : ℚ) (s : Session) (hz : ¬(z - 22 < 250)) :
    obstacleTick (1/2) (3/10) s (wallObs z) = (s, wallObs (z - 22)) := by
  unfold obstacleTick wallObs GAME_SPEED
  push_neg at hz
  dsimp only
  split_ifs with h1 h2 h3 <;>
    first
      | rfl
      | (exfalso; linarith [h1.2.1])
      | (exfalso; simp_all; all_goals linarith)

theorem processList_far (m : ℕ) (s : Session) (z : ℚ)
    (hz : ¬(z - 22 < 250)) :
    processList (obstacleTick (1/2) (3/10)) s
        (List.replicate m (wallObs z)) =
      (s, List.replicate m (wallObs (z - 22))) := by
  induction m generalizing s with
  | zero => rfl
  | succ m ih =>
    simp only [List.replicate_succ, processList, obstacleTick_far z s hz, ih]

theorem filter_keep_wall (m : ℕ) (z : ℚ) :
    (List.replicate m (wallObs z)).filter (fun o => !o.remove) =
      List.replicate m (wallObs z) := by
  induction m with
  | zero => rfl
  | succ m ih => simp [List.replicate_succ, List.filter_cons, wallObs, ih]

theorem frame_far (s : Session) (m : ℕ) (z : ℚ) (hz : ¬(z - 22 < 250)) :
    step ⟨s, [], List.replicate m (wallObs z)⟩ frameEv =
      ⟨s, [], List.replicate m (wallObs (z - 22))⟩ := by
  show levelTick 0 0 ⟨0, 0⟩ ⟨0, 0⟩ (1/2) (3/10)
        ⟨s, [], List.replicate m (wallObs z)⟩ =
      ⟨s, [], List.replicate m (wallObs (z - 22))⟩
  unfold levelTick
  dsimp only
  simp only [processList, List.filter_nil]
  rw [processList_far m s z hz, filter_keep_wall]

theorem frames_far (k : ℕ) (z : ℚ) (s : Session) (m : ℕ)
    (hk : 250 + 22 * k ≤ z) :
    run ⟨s, [], List.replicate m (wallObs z)⟩ (List.replicate k frameEv) =
      ⟨s, [], List.replicate m (wallObs (z - 22 * k))⟩ := by
  induction k generalizing z with
  | zero => simp [run, List.replicate]
  | succ k ih =>
    have hknn : (0 : ℚ) ≤ (k : ℚ) := Nat.cast_nonneg k
    push_cast at hk ⊢
    have hz : ¬(z - 22 < 250) := by intro hc; linarith
    have hk' : 250 + 22 * (k : ℚ) ≤ z - 22 := by linarith
    calc run ⟨s, [], List.replicate m (wallObs z)⟩
          (List.replicate (k + 1) frameEv)
        = run (step ⟨s, [], List.replicate m (wallObs z)⟩ frameEv)
            (List.replicate k frameEv) := by
          simp only [List.replicate_succ, run, List.foldl_cons]
      _ = run ⟨s, [], List.replicate m (wallObs (z - 22))⟩
            (List.replicate k frameEv) := by rw [frame_far s m z hz]
      _ = ⟨s, [], List.replicate m (wallObs (z - 22 - 22 * k))⟩ := ih _ hk'
      _ = ⟨s, [], List.replicate m (wallObs (z - 22 * ((k : ℚ) + 1)))⟩ := by
          have harg : z - 22 - 22 * (k : ℚ) = z - 22 * ((k : ℚ) + 1) := by ring
          rw [harg]

/-- A left wall at depth 266 enters the window this frame and collides:
energy drops by 10 with no clamping. -/
theorem obstacleTick_collide (s : Session) :
    obstacleTick (1/2) (3/10) s (wallObs 266) =
      ({ s with energy := s.energy - 10, combo := 0 },
       ⟨ObstacleType.WALL_LEFT, 244, 400, true, false⟩) := by
  unfold obstacleTick wallObs GAME_SPEED
  dsimp only
  norm_num

theorem processList_collide (m : ℕ) (s : Session) :
    (processList (obstacleTick (1/2) (3/10)) s
        (List.replicate m (wallObs 266))).1.energy = s.energy - 10 * m := by
  induction m generalizing s with
  | zero => simp [processList]
  | succ m ih =>
    simp only [List.replicate_succ, processList, obstacleTick_collide]
    rw [ih]
    push_cast
    ring

/-- C1 counterexample: a reachable state (spawn six left walls, lean left,
run 148 frames) in which the obstacle-collision updates drive energy to
−10, outside [0,100], immediately after an energy-modifying update. -/
theorem energy_leaves_range_reachable :
    (run initState obstacleTrace).session.energy = -10 := by
  unfold obstacleTrace
  rw [run_append, run_spawn_six]
  have hsplit : List.replicate 148 frameEv =
      List.replicate 147 frameEv ++ [frameEv] := by
    rw [show (148 : ℕ) = 147 + 1 from rfl, List.replicate_succ']
  rw [hsplit, run_append]
  rw [frames_far 147 SPAWN_Z initState.session 6 (by norm_num [SPAWN_Z])]
  have h266 : SPAWN_Z - 22 * ((147 : ℕ) : ℚ) = 266 := by
    norm_num [SPAWN_Z]
  rw [h266]
  show (levelTick 0 0 ⟨0, 0⟩ ⟨0, 0⟩ (1/2) (3/10)
      ⟨initState.session, [], List.replicate 6 (wallObs 266)⟩).session.energy
      = -10
  unfold levelTick
  dsimp only
  simp only [processList, List.filter_nil]
  simp only [obstacleTick_collide]
  norm_num [initState, startLevel]

/-! ### Branch characterizations of the two phases -/

theorem judgePhase_not_window (cx cy : ℚ) (left right : Hand) (s : Session)
    (b1 : SaberBlock)
    (h : ¬(¬b1.hit = true ∧ b1.z < HIT_WINDOW_Z_FAR ∧
           b1.z > HIT_WINDOW_Z_NEAR)) :
    judgePhase cx cy left right s b1 = (s, b1) := by
  unfold judgePhase
  rw [if_neg h]

theorem judgePhase_bomb_hit (cx cy : ℚ) (left right : Hand) (s : Session)
    (b1 : SaberBlock) (h1 : b1.hit = false) (hw : InWindow b1)
    (hty : b1.type = BlockType.bomb)
    (hh : blockHitBy cx cy left b1 = true ∨ blockHitBy cx cy right b1 = true) :
    judgePhase cx cy left right s b1 =
      (if max 0 (s.energy - 15) ≤ 0 then
         finishGame { s with energy := max 0 (s.energy - 15), combo := 0 }
       else { s with energy := max 0 (s.energy - 15), combo := 0 },
       { b1 with hit := true }) := by
  unfold judgePhase
  rw [if_pos ⟨by simp [h1], hw.1, hw.2⟩, if_pos hty,
    if_pos (by rcases hh with h | h <;> simp [h])]

theorem judgePhase_bomb_nohit (cx cy : ℚ) (left right : Hand) (s : Session)
    (b1 : SaberBlock) (h1 : b1.hit = false) (hw : InWindow b1)
    (hty : b1.type = BlockType.bomb)
    (hh : blockHitBy cx cy left b1 = false ∧
          blockHitBy cx cy right b1 = false) :
    judgePhase cx cy left right s b1 = (s, b1) := by
  unfold judgePhase
  rw [if_pos ⟨by simp [h1], hw.1, hw.2⟩, if_pos hty,
    if_neg (by simp [hh.1, hh.2])]

theorem judgePhase_normal_hit (cx cy : ℚ) (left right : Hand) (s : Session)
    (b1 : SaberBlock) (h1 : b1.hit = false) (hw : InWindow b1)
    (hty : b1.type = BlockType.normal)
    (hsucc : (b1.color = BlockColor.red ∧
                blockHitBy cx cy left b1 = true) ∨
             (b1.color = BlockColor.blue ∧
                blockHitBy cx cy right b1 = true)) :
    judgePhase cx cy left right s b1 =
      ({ s with
          hitNotes := s.hitNotes + 1,
          score := s.score + (100 + if s.combo > 10 then 10 else 0),
          combo := s.combo + 1,
          energy := min 100 (s.energy + 4) },
       { b1 with hit := true }) := by
  unfold judgePhase
  rw [if_pos ⟨by simp [h1], hw.1, hw.2⟩, if_neg (by simp [hty]),
    if_pos hsucc]

theorem judgePhase_normal_nohit (cx cy : ℚ) (left right : Hand) (s : Session)
    (b1 : SaberBlock) (h1 : b1.hit = false) (hw : InWindow b1)
    (hty : b1.type = BlockType.normal)
    (hsucc : ¬((b1.color = BlockColor.red ∧
                 blockHitBy cx cy left b1 = true) ∨
               (b1.color = BlockColor.blue ∧
                 blockHitBy cx cy right b1 = true))) :
    judgePhase cx cy left right s b1 = (s, b1) := by
  unfold judgePhase
  rw [if_pos ⟨by simp [h1], hw.1, hw.2⟩, if_neg (by simp [hty]),
    if_neg hsucc]

theorem missPhase_stay (s : Session) (b2 : SaberBlock)
    (h : ¬(b2.z < -250)) : missPhase (s, b2) = (s, b2) := by
  unfold missPhase
  rw [if_neg h]

theorem missPhase_miss (s : Session) (b2 : SaberBlock) (h : b2.z < -250)
    (hh : b2.hit = false) (hty : b2.type ≠ BlockType.bomb) :
    missPhase (s, b2) =
      (if max 0 (s.energy - 8) ≤ 0 then
         finishGame { s with combo := 0, energy := max 0 (s.energy - 8) }
       else { s with combo := 0, energy := max 0 (s.energy - 8) },
       { b2 with remove := true }) := by
  unfold missPhase
  rw [if_pos h, if_pos ⟨by simp [hh], hty⟩]

theorem missPhase_remove_only (s : Session) (b2 : SaberBlock)
    (h : b2.z < -250) (hh : ¬(¬b2.hit = true ∧ b2.type ≠ BlockType.bomb)) :
    missPhase (s, b2) = (s, { b2 with remove := true }) := by
  unfold missPhase
  rw [if_pos h, if_neg hh]

/-- Helper: both arms of the bomb-penalty conditional have combo 0. -/
theorem bombPenalty_combo (s : Session) (e : ℤ) :
    (if e ≤ 0 then finishGame { s with energy := e, combo := 0 }
     else { s with energy := e, combo := 0 }).combo = 0 := by
  split_ifs <;> rfl

/-- Helper: both arms of the miss-penalty conditional have combo 0. -/
theorem missPenalty_combo (s : Session) (e : ℤ) :
    (if e ≤ 0 then finishGame { s with combo := 0, energy := e }
     else { s with combo := 0, energy := e }).combo = 0 := by
  split_ifs <;> rfl

/-- C2: combo is 0 immediately after any note miss or hazard (bomb) hit,
increases by exactly 1 on a confirmed regular hit, and never changes in
any other way in a block update (in particular it never grows by more
than 1 per hit). -/
theorem combo_discipline (cx cy : ℚ) (left right : Hand) (s : Session)
    (b : SaberBlock) :
    (MissOccurs b → (blockTick cx cy left right s b).1.combo = 0) ∧
    (BombHitOccurs cx cy left right b →
      (blockTick cx cy left right s b).1.combo = 0) ∧
    (RegularHitOccurs cx cy left right b →
      (blockTick cx cy left right s b).1.combo = s.combo + 1) ∧
    ((blockTick cx cy left right s b).1.combo = 0 ∨
     (blockTick cx cy left right s b).1.combo = s.combo ∨
     (RegularHitOccurs cx cy left right b ∧
       (blockTick cx cy left right s b).1.combo = s.combo + 1)) := by
  rw [blockTick_phases]
  by_cases hrem : b.remove
  · rw [if_pos hrem]
    refine ⟨?_, ?_, ?_, Or.inr (Or.inl rfl)⟩ <;>
      rintro ⟨hf, -⟩ <;> rw [hrem] at hf <;> cases hf
  · rw [if_neg hrem]
    have hrem' : b.remove = false := by simpa using hrem
    by_cases hw : ¬(moved b).hit = true ∧ (moved b).z < HIT_WINDOW_Z_FAR ∧
        (moved b).z > HIT_WINDOW_Z_NEAR
    · obtain ⟨hh1, hzf, hzn⟩ := hw
      have hh1' : (moved b).hit = false := by simpa using hh1
      have hwin : InWindow (moved b) := ⟨hzf, hzn⟩
      have hstay : ¬((moved b).z < -250) := by
        simp only [HIT_WINDOW_Z_NEAR] at hzn
        intro hc; linarith
      by_cases hty : (moved b).type = BlockType.bomb
      · by_cases hbh : blockHitBy cx cy left (moved b) = true ∨
            blockHitBy cx cy right (moved b) = true
        · rw [judgePhase_bomb_hit cx cy left right s (moved b) hh1' hwin
            hty hbh]
          rw [missPhase_stay _ ({ moved b with hit := true }) hstay]
          refine ⟨fun hmiss => ?_, fun _ => bombPenalty_combo s _,
            fun hreg => ?_, Or.inl (bombPenalty_combo s _)⟩
          · exact absurd (show b.type = BlockType.normal from hmiss.2.2.1)
              (by rw [show b.type = BlockType.bomb from hty]; simp)
          · exact absurd (show b.type = BlockType.normal from hreg.2.2.1)
              (by rw [show b.type = BlockType.bomb from hty]; simp)
        · push_neg at hbh
          have hbh1 : blockHitBy cx cy left (moved b) = false := by
            simpa using hbh.1
          have hbh2 : blockHitBy cx cy right (moved b) = false := by
            simpa using hbh.2
          rw [judgePhase_bomb_nohit cx cy left right s (moved b) hh1' hwin
            hty ⟨hbh1, hbh2⟩]
          rw [missPhase_stay s (moved b) hstay]
          refine ⟨fun hmiss => ?_, fun hbomb => ?_, fun hreg => ?_,
            Or.inr (Or.inl rfl)⟩
          · exact absurd hmiss.2.2.2 hstay
          · rcases hbomb.2.2.2.2 with hl | hr
            · rw [hbh1] at hl; cases hl
            · rw [hbh2] at hr; cases hr
          · exact absurd (show b.type = BlockType.normal from hreg.2.2.1)
              (by rw [show b.type = BlockType.bomb from hty]; simp)
      · have htyn : (moved b).type = BlockType.normal := by
          cases hbt : (moved b).type
          · rfl
          · exact absurd hbt hty
        by_cases hsucc : ((moved b).color = BlockColor.red ∧
              blockHitBy cx cy left (moved b) = true) ∨
            ((moved b).color = BlockColor.blue ∧
              blockHitBy cx cy right (moved b) = true)
        · rw [judgePhase_normal_hit cx cy left right s (moved b) hh1' hwin
            htyn hsucc]
          rw [missPhase_stay _ ({ moved b with hit := true }) hstay]
          have hreg : RegularHitOccurs cx cy left right b :=
            ⟨hrem', hh1', htyn, hwin, hsucc⟩
          exact ⟨fun hmiss => absurd hmiss.2.2.2 hstay,
            fun hbomb => absurd
              (show b.type = BlockType.bomb from hbomb.2.2.1)
              (by rw [show b.type = BlockType.normal from htyn]; simp),
            fun _ => rfl, Or.inr (Or.inr ⟨hreg, rfl⟩)⟩
        · rw [judgePhase_normal_nohit cx cy left right s (moved b) hh1' hwin
            htyn hsucc]
          rw [missPhase_stay s (moved b) hstay]
          exact ⟨fun hmiss => absurd hmiss.2.2.2 hstay,
            fun hbomb => absurd
              (show b.type = BlockType.bomb from hbomb.2.2.1)
              (by rw [show b.type = BlockType.normal from htyn]; simp),
            fun hreg => absurd hreg.2.2.2.2 hsucc,
            Or.inr (Or.inl rfl)⟩
    · rw [judgePhase_not_window cx cy left right s (moved b) hw]
      by_cases hz : (moved b).z < -250
      · by_cases hmb : ¬(moved b).hit = true ∧
            (moved b).type ≠ BlockType.bomb
        · rw [missPhase_miss s (moved b) hz (by simpa using hmb.1) hmb.2]
          refine ⟨fun _ => missPenalty_combo s _, fun hbomb => ?_,
            fun hreg => ?_, Or.inl (missPenalty_combo s _)⟩
          · exact absurd ⟨by simp [moved, show b.hit = false from hbomb.2.1],
              hbomb.2.2.2.1.1, hbomb.2.2.2.1.2⟩ hw
          · exact absurd ⟨by simp [moved, show b.hit = false from hreg.2.1],
              hreg.2.2.2.1.1, hreg.2.2.2.1.2⟩ hw
        · rw [missPhase_remove_only s (moved b) hz hmb]
          refine ⟨fun hmiss => ?_, fun hbomb => ?_, fun hreg => ?_,
            Or.inr (Or.inl rfl)⟩
          · exact absurd ⟨by simp [moved, show b.hit = false from hmiss.2.1],
              by rw [show (moved b).type = BlockType.normal from
                hmiss.2.2.1]; simp⟩ hmb
          · exact absurd ⟨by simp [moved, show b.hit = false from hbomb.2.1],
              hbomb.2.2.2.1.1, hbomb.2.2.2.1.2⟩ hw
          · exact absurd ⟨by simp [moved, show b.hit = false from hreg.2.1],
              hreg.2.2.2.1.1, hreg.2.2.2.1.2⟩ hw
      · rw [missPhase_stay s (moved b) hz]
        refine ⟨fun hmiss => ?_, fun hbomb => ?_, fun hreg => ?_,
          Or.inr (Or.inl rfl)⟩
        · exact absurd hmiss.2.2.2 hz
        · exact absurd ⟨by simp [moved, show b.hit = false from hbomb.2.1],
            hbomb.2.2.2.1.1, hbomb.2.2.2.1.2⟩ hw
        · exact absurd ⟨by simp [moved, show b.hit = false from hreg.2.1],
            hreg.2.2.2.1.1, hreg.2.2.2.1.2⟩ hw

/-- Witness for C2: a concrete untouched normal note crossing the
terminal plane (a miss) leaves combo at 0. -/
theorem combo_discipline_witness :
    (blockTick 0 0 ⟨0, 0⟩ ⟨0, 0⟩ ⟨0, 3, 50, 0, 1, true⟩
      ⟨2, 0, -229, BlockColor.red, BlockType.normal, BlockDirection.UP,
       false, false⟩).1.combo = 0 :=
  (combo_discipline 0 0 ⟨0, 0⟩ ⟨0, 0⟩ ⟨0, 3, 50, 0, 1, true⟩
      ⟨2, 0, -229, BlockColor.red, BlockType.normal, BlockDirection.UP,
       false, false⟩).1
    ⟨rfl, rfl, rfl, by norm_num [moved, GAME_SPEED]⟩

/-- C7: a regular note at lane (2,0) requiring the left hand (red): when
the left hand is within the hittable window and proximity threshold, the
note is marked hit, score increases by the base value 100 (combo 0 means
no tier bonus), combo becomes 1, hitNotes increments, and energy gains the
fixed bonus capped at 100; and the non-designated hand alone can never
produce the hit (the state is unchanged when the left hand is not close,
whatever the right hand does). -/
theorem left_note_hit (cx cy : ℚ) (left right : Hand) (s : Session)
    (b : SaberBlock) (hrem : b.remove = false) (hhit : b.hit = false)
    (hty : b.type = BlockType.normal) (hcol : b.color = BlockColor.red)
    (hgx : b.gridX = 2) (hgy : b.gridY = 0) (hwin : InWindow (moved b))
    (hcombo : s.combo = 0) :
    (blockHitBy cx cy left (moved b) = true →
      blockTick cx cy left right s b =
        ({ s with
            hitNotes := s.hitNotes + 1,
            score := s.score + 100,
            combo := 1,
            energy := min 100 (s.energy + 4) },
         { moved b with hit := true })) ∧
    (blockHitBy cx cy left (moved b) = false →
      blockTick cx cy left right s b = (s, moved b)) := by
  have hstay : ¬((moved b).z < -250) := by
    have := hwin.2
    simp only [HIT_WINDOW_Z_NEAR] at this
    intro hc; linarith
  constructor
  · intro hl
    rw [blockTick_phases, if_neg (by simp [hrem])]
    rw [judgePhase_normal_hit cx cy left right s (moved b) hhit hwin hty
      (Or.inl ⟨hcol, hl⟩)]
    rw [missPhase_stay _ ({ moved b with hit := true }) hstay]
    simp [hcombo]
  · intro hl0
    rw [blockTick_phases, if_neg (by simp [hrem])]
    rw [judgePhase_normal_nohit cx cy left right s (moved b) hhit hwin hty
      ?hsucc]
    · exact missPhase_stay s (moved b) hstay
    case hsucc =>
      rintro (⟨-, hc⟩ | ⟨hc, -⟩)
      · rw [hl0] at hc; cases hc
      · have : b.color = BlockColor.blue := hc
        rw [hcol] at this; cases this

/-- Witness for C7: left hand exactly on the projected position of a red
note at lane (2,0) and depth 0: score 7→107, combo 0→1, hitNotes 3→4,
energy 50→54, note marked hit. -/
theorem left_note_hit_witness :
    (blockTick 0 0 ⟨500, 240⟩ ⟨0, 0⟩ ⟨7, 0, 50, 3, 5, true⟩
        ⟨2, 0, 22, BlockColor.red, BlockType.normal, BlockDirection.UP,
         false, false⟩).1.combo = 1 ∧
    (blockTick 0 0 ⟨500, 240⟩ ⟨0, 0⟩ ⟨7, 0, 50, 3, 5, true⟩
        ⟨2, 0, 22, BlockColor.red, BlockType.normal, BlockDirection.UP,
         false, false⟩).1.score = 107 ∧
    (blockTick 0 0 ⟨500, 240⟩ ⟨0, 0⟩ ⟨7, 0, 50, 3, 5, true⟩
        ⟨2, 0, 22, BlockColor.red, BlockType.normal, BlockDirection.UP,
         false, false⟩).1.hitNotes = 4 ∧
    (blockTick 0 0 ⟨500, 240⟩ ⟨0, 0⟩ ⟨7, 0, 50, 3, 5, true⟩
        ⟨2, 0, 22, BlockColor.red, BlockType.normal, BlockDirection.UP,
         false, false⟩).1.energy = 54 ∧
    (blockTick 0 0 ⟨500, 240⟩ ⟨0, 0⟩ ⟨7, 0, 50, 3, 5, true⟩
        ⟨2, 0, 22, BlockColor.red, BlockType.normal, BlockDirection.UP,
         false, false⟩).2.hit = true := by
  have h := (left_note_hit 0 0 ⟨500, 240⟩ ⟨0, 0⟩ ⟨7, 0, 50, 3, 5, true⟩
      ⟨2, 0, 22, BlockColor.red, BlockType.normal, BlockDirection.UP,
       false, false⟩ rfl rfl rfl rfl rfl rfl
      (by constructor <;>
        norm_num [moved, GAME_SPEED, HIT_WINDOW_Z_FAR, HIT_WINDOW_Z_NEAR])
      rfl).1
    (by norm_num [blockHitBy, blockProj, project, hitCheck, moved,
      GAME_SPEED, FOCAL_LENGTH, BLOCK_SIZE, GRID_X_SPACING, GRID_Y_SPACING,
      Bool.and_eq_true, decide_eq_true_eq])
  rw [h]
  refine ⟨rfl, by norm_num, by norm_num, by norm_num, rfl⟩

/-- C8: a hazard (bomb) note hit by ANY hand inside the hittable window:
the note is marked hit, energy drops by the hazard penalty 15 (clamped at
0), combo resets to 0, score/hitNotes/totalNotes are untouched, and if
the resulting energy is ≤ 0 the session finishes immediately; whereas a
bomb that reaches the terminal plane untouched is removed with no
score/combo/energy penalty at all. -/
theorem bomb_note_effects (cx cy : ℚ) (left right : Hand) (s : Session)
    (b : SaberBlock) (hrem : b.remove = false) (hhit : b.hit = false)
    (hty : b.type = BlockType.bomb) :
    (InWindow (moved b) →
      (blockHitBy cx cy left (moved b) = true ∨
       blockHitBy cx cy right (moved b) = true) →
      ((blockTick cx cy left right s b).1.energy = max 0 (s.energy - 15) ∧
       (blockTick cx cy left right s b).1.combo = 0 ∧
       (blockTick cx cy left right s b).1.score = s.score ∧
       (blockTick cx cy left right s b).1.hitNotes = s.hitNotes ∧
       (blockTick cx cy left right s b).1.totalNotes = s.totalNotes ∧
       (blockTick cx cy left right s b).2.hit = true ∧
       ((blockTick cx cy left right s b).1.energy ≤ 0 →
         (blockTick cx cy left right s b).1.isPlaying = false) ∧
       (0 < (blockTick cx cy left right s b).1.energy →
         (blockTick cx cy left right s b).1.isPlaying = s.isPlaying))) ∧
    ((moved b).z < -250 →
      blockTick cx cy left right s b =
        (s, { moved b with remove := true })) := by
  constructor
  · intro hwin hbh
    have hstay : ¬((moved b).z < -250) := by
      have := hwin.2
      simp only [HIT_WINDOW_Z_NEAR] at this
      intro hc; linarith
    rw [blockTick_phases, if_neg (by simp [hrem])]
    rw [judgePhase_bomb_hit cx cy left right s (moved b) hhit hwin hty hbh]
    rw [missPhase_stay _ ({ moved b with hit := true }) hstay]
    by_cases he : max 0 (s.energy - 15) ≤ 0
    · rw [if_pos he]
      refine ⟨rfl, rfl, rfl, rfl, rfl, rfl, fun _ => rfl, fun hpos => ?_⟩
      dsimp only [finishGame] at hpos
      omega
    · rw [if_neg he]
      refine ⟨rfl, rfl, rfl, rfl, rfl, rfl, fun hle => ?_, fun _ => rfl⟩
      dsimp only at hle
      omega
  · intro hz
    rw [blockTick_phases, if_neg (by simp [hrem])]
    rw [judgePhase_not_window cx cy left right s (moved b)
      (by rintro ⟨-, -, hzn⟩; simp only [HIT_WINDOW_Z_NEAR] at hzn; linarith)]
    exact missPhase_remove_only s (moved b) hz
      (by rintro ⟨-, hnb⟩; exact hnb hty)

/-- Witness for C8: a bomb at lane (2,0), depth 0, touched by the left
hand while energy is 10: energy clamps to 0, combo resets, and the
session finishes (isPlaying = false). -/
theorem bomb_note_effects_witness :
    (blockTick 0 0 ⟨500, 240⟩ ⟨0, 0⟩ ⟨7, 5, 10, 3, 5, true⟩
        ⟨2, 0, 22, BlockColor.blue, BlockType.bomb, BlockDirection.DOT,
         false, false⟩).1.energy = 0 ∧
    (blockTick 0 0 ⟨500, 240⟩ ⟨0, 0⟩ ⟨7, 5, 10, 3, 5, true⟩
        ⟨2, 0, 22, BlockColor.blue, BlockType.bomb, BlockDirection.DOT,
         false, false⟩).1.combo = 0 ∧
    (blockTick 0 0 ⟨500, 240⟩ ⟨0, 0⟩ ⟨7, 5, 10, 3, 5, true⟩
        ⟨2, 0, 22, BlockColor.blue, BlockType.bomb, BlockDirection.DOT,
         false, false⟩).1.isPlaying = false := by
  have h := (bomb_note_effects 0 0 ⟨500, 240⟩ ⟨0, 0⟩ ⟨7, 5, 10, 3, 5, true⟩
      ⟨2, 0, 22, BlockColor.blue, BlockType.bomb, BlockDirection.DOT,
       false, false⟩ rfl rfl rfl).1
    (by constructor <;>
      norm_num [moved, GAME_SPEED, HIT_WINDOW_Z_FAR, HIT_WINDOW_Z_NEAR])
    (Or.inl (by norm_num [blockHitBy, blockProj, project, hitCheck, moved,
      GAME_SPEED, FOCAL_LENGTH, BLOCK_SIZE, GRID_X_SPACING, GRID_Y_SPACING,
      Bool.and_eq_true, decide_eq_true_eq]))
  obtain ⟨he, hc, -, -, -, -, hfin, -⟩ := h
  dsimp only at he
  have he0 : (blockTick 0 0 ⟨500, 240⟩ ⟨0, 0⟩ ⟨7, 5, 10, 3, 5, true⟩
      ⟨2, 0, 22, BlockColor.blue, BlockType.bomb, BlockDirection.DOT,
       false, false⟩).1.energy = 0 := by omega
  exact ⟨he0, hc, hfin (by omega)⟩

/-! ### Scheduler lemmas (C4) -/

theorem subdivisionInc_pos (bpm : ℚ) (hbpm : 0 < bpm) :
    0 < subdivisionInc bpm := by
  unfold subdivisionInc secondsPerBeat
  positivity

theorem dueCount_eq_zero (bpm now t : ℚ) (hbpm : 0 < bpm)
    (h : now + 1/10 ≤ t) : dueCount bpm now t = 0 := by
  unfold dueCount
  have hinc := subdivisionInc_pos bpm hbpm
  have hx : (now + 1/10 - t) / subdivisionInc bpm ≤ 0 :=
    div_nonpos_iff.mpr (Or.inr ⟨by linarith, le_of_lt hinc⟩)
  have : ⌈(now + 1/10 - t) / subdivisionInc bpm⌉ ≤ 0 := by
    exact_mod_cast Int.ceil_le.mpr (by exact_mod_cast hx)
  omega

theorem dueCount_succ (bpm now t : ℚ) (hbpm : 0 < bpm)
    (h : t < now + 1/10) :
    dueCount bpm now t = dueCount bpm now (t + subdivisionInc bpm) + 1 := by
  unfold dueCount
  have hinc := subdivisionInc_pos bpm hbpm
  have hxpos : 0 < (now + 1/10 - t) / subdivisionInc bpm :=
    div_pos (by linarith) hinc
  have hceil : 1 ≤ ⌈(now + 1/10 - t) / subdivisionInc bpm⌉ := by
    have := Int.ceil_pos.mpr hxpos
    omega
  have hshift : (now + 1/10 - (t + subdivisionInc bpm)) / subdivisionInc bpm
      = (now + 1/10 - t) / subdivisionInc bpm - 1 := by
    field_simp
    ring
  rw [hshift]
  rw [show ((now + 1/10 - t) / subdivisionInc bpm - 1 : ℚ)
      = (now + 1/10 - t) / subdivisionInc bpm - ((1 : ℤ) : ℚ) by norm_num,
    Int.ceil_sub_int]
  omega

/-- Full characterization of one scheduler invocation, by induction on the
fuel: with enough fuel the drain loop emits exactly the `dueCount` due
subdivisions, in order, with nominal times advancing by the fixed
increment and the counter advancing mod 16. -/
theorem schedulerRun_eq (fuel : ℕ) (bpm now t : ℚ) (c : ℕ)
    (hbpm : 0 < bpm) (hc : c < 16)
    (hfuel : now + 1/10 ≤ t + fuel * subdivisionInc bpm) :
    schedulerRun fuel bpm now ⟨t, c⟩ =
      ((List.range (dueCount bpm now t)).map
          (fun k => ((c + k) % 16, t + k * subdivisionInc bpm)),
       ⟨t + dueCount bpm now t * subdivisionInc bpm,
        (c + dueCount bpm now t) % 16⟩) := by
  induction fuel generalizing t c with
  | zero =>
    simp only [Nat.cast_zero, zero_mul, add_zero] at hfuel
    rw [schedulerRun, dueCount_eq_zero bpm now t hbpm hfuel]
    simp [Nat.mod_eq_of_lt hc]
  | succ fuel ih =>
    rw [schedulerRun]
    by_cases ht : t < now + 1/10
    · rw [if_pos ht]
      have hfuel' : now + 1/10 ≤ (t + subdivisionInc bpm) +
          fuel * subdivisionInc bpm := by
        push_cast at hfuel ⊢
        linarith
      rw [ih (t + subdivisionInc bpm) ((c + 1) % 16)
        (Nat.mod_lt _ (by norm_num)) hfuel']
      rw [dueCount_succ bpm now t hbpm ht]
      set n := dueCount bpm now (t + subdivisionInc bpm) with hn
      dsimp only
      have hlist : (c, t) :: (List.range n).map
            (fun k => (((c + 1) % 16 + k) % 16,
              t + subdivisionInc bpm + (k : ℚ) * subdivisionInc bpm)) =
          (List.range (n + 1)).map
            (fun k => ((c + k) % 16, t + (k : ℚ) * subdivisionInc bpm)) := by
        rw [List.range_succ_eq_map, List.map_cons, List.map_map]
        refine List.cons_eq_cons.mpr ⟨?_, ?_⟩
        · simp [Nat.mod_eq_of_lt hc]
        · refine List.map_congr_left fun k hk => ?_
          simp only [Function.comp_apply]
          rw [Prod.mk.injEq]
          exact ⟨by omega, by push_cast; ring⟩
      have htime : t + subdivisionInc bpm + (n : ℚ) * subdivisionInc bpm
          = t + ((n + 1 : ℕ) : ℚ) * subdivisionInc bpm := by
        push_cast
        ring
      have hcnt : ((c + 1) % 16 + n) % 16 = (c + (n + 1)) % 16 := by omega
      rw [Prod.mk.injEq]
      exact ⟨hlist, by rw [htime, hcnt]⟩
    · rw [if_neg ht]
      push_neg at ht
      rw [dueCount_eq_zero bpm now t hbpm ht]
      simp [Nat.mod_eq_of_lt hc]

/-- C4: one scheduler invocation with sufficient fuel drains exactly the
subdivisions whose nominal time is below `now + 0.1` (the second conjunct
characterizes that due set), in order, emitting each exactly once (the
output list is literally the range map, so there are no duplicates and no
omissions); nominal times strictly increase by the fixed per-subdivision
increment `0.25 * 60/bpm`, and both `nextNoteTime` and the counter (mod
16) advance accordingly. -/
theorem scheduler_exact_drain (bpm now t : ℚ) (c fuel : ℕ)
    (hbpm : 0 < bpm) (hc : c < 16)
    (hfuel : now + 1/10 ≤ t + fuel * subdivisionInc bpm) :
    schedulerRun fuel bpm now ⟨t, c⟩ =
      ((List.range (dueCount bpm now t)).map
          (fun k => ((c + k) % 16, t + k * subdivisionInc bpm)),
       ⟨t + dueCount bpm now t * subdivisionInc bpm,
        (c + dueCount bpm now t) % 16⟩) ∧
    (∀ k : ℕ, (t + k * subdivisionInc bpm < now + 1/10 ↔
        k < dueCount bpm now t)) ∧
    ((schedulerRun fuel bpm now ⟨t, c⟩).1.map Prod.snd).Pairwise (· < ·) := by
  have hinc := subdivisionInc_pos bpm hbpm
  have hmain := schedulerRun_eq fuel bpm now t c hbpm hc hfuel
  refine ⟨hmain, fun k => ?_, ?_⟩
  · unfold dueCount
    rw [Int.lt_toNat, Int.lt_ceil, lt_div_iff₀ hinc]
    push_cast
    constructor <;> intro h <;> linarith
  · rw [hmain]
    dsimp only
    rw [List.map_map]
    refine List.Pairwise.map _ ?_ (List.pairwise_lt_range _)
    intro a b hab
    simp only [Function.comp_apply]
    have hcast : (a : ℚ) < (b : ℚ) := by exact_mod_cast hab
    have := mul_lt_mul_of_pos_right hcast hinc
    linarith

/-- Witness for C4: BPM 120, counter 0, `nextNoteTime` 0, `now` 0.3,
fuel 10 (enough: 10 · 0.125 = 1.25 ≥ 0.4). -/
theorem scheduler_exact_drain_witness :
    schedulerRun 10 120 (3/10) ⟨0, 0⟩ =
      ((List.range (dueCount 120 (3/10) 0)).map
          (fun k : ℕ => ((0 + k) % 16, (0 : ℚ) + k * subdivisionInc 120)),
       ⟨0 + dueCount 120 (3/10) 0 * subdivisionInc 120,
        (0 + dueCount 120 (3/10) 0) % 16⟩) ∧
    (∀ k : ℕ, ((0 : ℚ) + k * subdivisionInc 120 < 3/10 + 1/10 ↔
        k < dueCount 120 (3/10) 0)) ∧
    ((schedulerRun 10 120 (3/10) ⟨0, 0⟩).1.map Prod.snd).Pairwise (· < ·) :=
  scheduler_exact_drain 120 (3/10) 0 0 10 (by norm_num) (by norm_num)
    (by norm_num [subdivisionInc, secondsPerBeat])

/-- C5 (amended): one `handleHoverLogic` update keeps progress within
[0,100] (given time runs forward); it commits the candidate exactly when
the candidate was already tracked with a truthy start time and at least
dwellDuration = 1500 ms have elapsed; and on commit it resets the tracker
(target none, start none, progress 0).  Because the reset re-arms the
tracker, a continuous hover lasting another full dwellDuration commits
AGAIN — see the counterexample for the claim's "exactly once". -/
theorem dwell_commit_behavior (T : Type) [DecidableEq T] (d : DwellState T)
    (c : T) (t : ℚ) (hp0 : 0 ≤ d.progress) (hp1 : d.progress ≤ 100)
    (hst : ∀ st, d.start = some st → st ≤ t) :
    (0 ≤ (handleHoverLogic T t c d).1.progress ∧
     (handleHoverLogic T t c d).1.progress ≤ 100) ∧
    ((handleHoverLogic T t c d).2 = some c ↔
      (d.current = some c ∧ ∃ st, d.start = some st ∧ st ≠ 0 ∧
        1500 ≤ t - st)) ∧
    ((handleHoverLogic T t c d).2 ≠ none →
      (handleHoverLogic T t c d).1 = ⟨none, none, 0⟩) := by
  unfold handleHoverLogic
  by_cases h1 : some c = d.current
  · rw [if_pos h1]
    match hd : d.start with
    | none =>
      rw [if_neg (by simp [startTruthy, hd])]
      refine ⟨⟨hp0, hp1⟩, ?_, fun h => absurd rfl h⟩
      simp [hd]
    | some st =>
      by_cases hne : st = 0
      · rw [if_neg (by simp [startTruthy, hd, hne])]
        refine ⟨⟨hp0, hp1⟩, ?_, fun h => absurd rfl h⟩
        constructor
        · rintro h; cases h
        · rintro ⟨-, st', hst', hne', -⟩
          injection hst' with he
          exact (hne' (he ▸ hne)).elim
      · rw [if_pos (by simp [startTruthy, hd, hne])]
        have hstt : st ≤ t := hst st hd
        simp only [Option.getD_some]
        by_cases hp : min ((t - st) / 1500 * 100) 100 ≥ 100
        · rw [if_pos hp]
          refine ⟨⟨le_refl 0, by norm_num⟩, ?_, fun _ => rfl⟩
          constructor
          · intro _
            refine ⟨h1.symm, st, rfl, hne, ?_⟩
            have hx : (100 : ℚ) ≤ (t - st) / 1500 * 100 :=
              le_trans hp (min_le_left _ _)
            rw [div_mul_eq_mul_div, le_div_iff₀ (by norm_num)] at hx
            linarith
          · intro _; rfl
        · rw [if_neg hp]
          refine ⟨⟨?_, min_le_right _ _⟩, ?_, fun h => absurd rfl h⟩
          · refine le_min ?_ (by norm_num)
            have : (0 : ℚ) ≤ t - st := by linarith
            positivity
          · constructor
            · rintro h; cases h
            · rintro ⟨-, st', hst', -, hge⟩
              injection hst' with he
              refine absurd ?_ hp
              have hx : (100 : ℚ) ≤ (t - st) / 1500 * 100 := by
                rw [div_mul_eq_mul_div, le_div_iff₀ (by norm_num)]
                rw [← he] at hge
                linarith
              exact le_min hx (le_refl 100)
  · rw [if_neg h1]
    refine ⟨⟨le_refl 0, by norm_num⟩, ?_, fun h => absurd rfl h⟩
    constructor
    · rintro h; cases h
    · rintro ⟨hcur, -⟩
      exact absurd hcur.symm h1

/-- Witness for C5 (amended): tracking candidate 0 since t = 1 ms, the
update at t = 1501 ms commits it. -/
theorem dwell_commit_behavior_witness :
    (handleHoverLogic ℕ 1501 0 ⟨some 0, some 1, 0⟩).2 = some 0 :=
  (dwell_commit_behavior ℕ ⟨some 0, some 1, 0⟩ 0 1501 (by norm_num)
      (by norm_num)
      (fun st h => by
        injection h with he
        rw [← he]; norm_num)).2.1.mpr
    ⟨rfl, 1, rfl, by norm_num, by norm_num⟩

/-- C5 counterexample: a continuous hover over one fixed candidate of
total duration 3001 ms ≥ dwellDuration, sampled at 1, 1501, 1502 and
3002 ms, commits TWICE (at 1501 and again at 3002), refuting "commits
exactly once" for runs longer than twice the dwell duration. -/
theorem dwell_double_commit :
    (hoverRun ℕ 0 [1, 1501, 1502, 3002] ⟨none, none, 0⟩).2 = [0, 0] := by
  have s1 : handleHoverLogic ℕ 1 0 ⟨none, none, 0⟩ =
      (⟨some 0, some 1, 0⟩, none) := by
    norm_num [handleHoverLogic]
    intro h
    exact Option.noConfusion h
  have s2 : handleHoverLogic ℕ 1501 0 ⟨some 0, some 1, 0⟩ =
      (⟨none, none, 0⟩, some 0) := by
    norm_num [handleHoverLogic, startTruthy]
  have s3 : handleHoverLogic ℕ 1502 0 ⟨none, none, 0⟩ =
      (⟨some 0, some 1502, 0⟩, none) := by
    norm_num [handleHoverLogic]
    intro h
    exact Option.noConfusion h
  have s4 : handleHoverLogic ℕ 3002 0 ⟨some 0, some 1502, 0⟩ =
      (⟨none, none, 0⟩, some 0) := by
    norm_num [handleHoverLogic, startTruthy]
  simp only [hoverRun, s1, s2, s3, s4]
  rfl

/-- C6 (amended): per-tick tracked-point behavior as implemented.  In the
game (`updateHand`): if the landmark's visibility is strictly above 0.5
the stored position is set DIRECTLY to the mirrored, canvas-scaled target
(no smoothing factor: the full step `target − current` is applied), with
velocity recorded and history capped at 6; otherwise (low visibility or no
landmark) the state is left completely unchanged.  In the menu cursor
(`updateMotionControl`): if a landmark with visibility above 0.5 exists,
the position IS exponentially smoothed toward the mirrored target with
fixed alpha 0.2; with no confident landmark the position is unchanged. -/
theorem hand_update_behavior (w h : ℚ) (p : Landmark) (st : SaberHand)
    (cur : ℚ × ℚ) (hvis : p.visibility > 1/2) :
    updateHand w h (some p) st =
      { x := (1 - p.x) * w, y := p.y * h,
        velX := (1 - p.x) * w - st.x, velY := p.y * h - st.y,
        history :=
          if (st.history ++ [((1 - p.x) * w, p.y * h)]).length > 6 then
            (st.history ++ [((1 - p.x) * w, p.y * h)]).drop
              ((st.history ++ [((1 - p.x) * w, p.y * h)]).length - 6)
          else st.history ++ [((1 - p.x) * w, p.y * h)] } ∧
    (∀ q : Landmark, ¬(q.visibility > 1/2) →
      updateHand w h (some q) st = st) ∧
    updateHand w h none st = st ∧
    (updateCursor w h none (some p) cur).1 =
      (cur.1 + ((1 - p.x) * w - cur.1) * (1/5),
       cur.2 + (p.y * h - cur.2) * (1/5)) ∧
    (updateCursor w h none (some p) cur).2 = true ∧
    updateCursor w h none none cur = (cur, false) := by
  refine ⟨?_, ?_, rfl, ?_, ?_, rfl⟩
  · unfold updateHand
    dsimp only
    rw [if_pos hvis]
  · intro q hq
    unfold updateHand
    dsimp only
    rw [if_neg hq]
  · unfold updateCursor
    dsimp only
    rw [if_pos hvis]
    rfl
  · unfold updateCursor
    dsimp only
    rw [if_pos hvis]
    rfl

/-- Witness for C6 (amended): a fully-visible landmark at normalized
x = 0 maps the game hand to canvas x = 100 (mirrored, no smoothing). -/
theorem hand_update_behavior_witness :
    (updateHand 100 100 (some ⟨0, 1/2, 1⟩) ⟨0, 0, [], 0, 0⟩).x = 100 := by
  have hmain := (hand_update_behavior 100 100 ⟨0, 1/2, 1⟩ ⟨0, 0, [], 0, 0⟩
    (0, 0) (by norm_num)).1
  rw [hmain]
  norm_num

/-- C6 counterexample: the game's `updateHand` moves the stored position
all the way to the target in one tick (position 0 jumps to the mirrored
target 100), while an exponential-smoothing step with the claim's alpha
values (0.12–0.2, any alpha < 1) from 0 toward 100 lands strictly below
100 — so the claimed `current += (target - current) * alpha` with
alpha < 1 is not what the hand update performs. -/
theorem hand_update_no_smoothing :
    (updateHand 100 100 (some ⟨0, 1/2, 1⟩) ⟨0, 0, [], 0, 0⟩).x = 100 ∧
    (0 : ℚ) + (100 - 0) * (12/100) ≠ 100 ∧
    (0 : ℚ) + (100 - 0) * (2/10) ≠ 100 := by
  refine ⟨?_, by norm_num, by norm_num⟩
  unfold updateHand
  dsimp only
  rw [if_pos (by norm_num)]
  norm_num

/-! ### Counting infrastructure for the accuracy invariant (C9) -/

/-- 1 for a normal block that is still pending (unhit, unremoved). -/
def normPending (b : SaberBlock) : ℕ :=
  if b.type = BlockType.normal ∧ b.hit = false ∧ b.remove = false then 1
  else 0

/-- Number of pending normal blocks. -/
def pendingCount (bs : List SaberBlock) : ℕ := (bs.map normPending).sum

theorem not_bomb_iff (t : BlockType) :
    ¬t = BlockType.bomb ↔ t = BlockType.normal := by
  cases t <;> simp

theorem judgePhase_counts (cx cy : ℚ) (l r : Hand) (s : Session)
    (b1 : SaberBlock) (hrem : b1.remove = false) :
    (judgePhase cx cy l r s b1).1.totalNotes = s.totalNotes ∧
    (judgePhase cx cy l r s b1).1.hitNotes +
        normPending (judgePhase cx cy l r s b1).2 ≤
      s.hitNotes + normPending b1 := by
  unfold judgePhase finishGame
  dsimp only
  split_ifs <;> constructor <;>
    simp_all [normPending, not_bomb_iff] <;> omega

theorem missPhase_counts (sb : Session × SaberBlock) :
    (missPhase sb).1.totalNotes = sb.1.totalNotes ∧
    (missPhase sb).1.hitNotes + normPending (missPhase sb).2 ≤
      sb.1.hitNotes + normPending sb.2 := by
  unfold missPhase finishGame
  dsimp only
  split_ifs <;> constructor <;>
    simp_all [normPending, not_bomb_iff] <;> omega

theorem blockTick_counts (cx cy : ℚ) (l r : Hand) (s : Session)
    (b : SaberBlock) :
    (blockTick cx cy l r s b).1.totalNotes = s.totalNotes ∧
    (blockTick cx cy l r s b).1.hitNotes +
        normPending (blockTick cx cy l r s b).2 ≤
      s.hitNotes + normPending b := by
  rw [blockTick_phases]
  by_cases hrem : b.remove
  · rw [if_pos hrem]
    exact ⟨rfl, le_refl _⟩
  · rw [if_neg hrem]
    have hrem' : (moved b).remove = false := by simpa [moved] using hrem
    have hj := judgePhase_counts cx cy l r s (moved b) hrem'
    have hm := missPhase_counts (judgePhase cx cy l r s (moved b))
    have hpb : normPending (moved b) = normPending b := rfl
    refine ⟨hm.1.trans hj.1, le_trans hm.2 ?_⟩
    rw [← hpb]
    exact hj.2

theorem processList_blocks_counts (cx cy : ℚ) (l r : Hand) :
    ∀ (bs : List SaberBlock) (s : Session),
    (processList (blockTick cx cy l r) s bs).1.totalNotes = s.totalNotes ∧
    (processList (blockTick cx cy l r) s bs).1.hitNotes +
        pendingCount (processList (blockTick cx cy l r) s bs).2 ≤
      s.hitNotes + pendingCount bs := by
  intro bs
  induction bs with
  | nil => exact fun s => ⟨rfl, by simp [processList, pendingCount]⟩
  | cons a as ih =>
    intro s
    simp only [processList]
    obtain ⟨h1, h2⟩ := blockTick_counts cx cy l r s a
    obtain ⟨h3, h4⟩ := ih (blockTick cx cy l r s a).1
    refine ⟨by rw [h3, h1], ?_⟩
    simp only [pendingCount, List.map_cons, List.sum_cons] at *
    omega

theorem obstacleTick_counts (hy bx : ℚ) (s : Session) (o : Obstacle) :
    (obstacleTick hy bx s o).1.hitNotes = s.hitNotes ∧
    (obstacleTick hy bx s o).1.totalNotes = s.totalNotes := by
  unfold obstacleTick
  dsimp only
  split_ifs <;> exact ⟨rfl, rfl⟩

theorem processList_obstacles_counts (hy bx : ℚ) :
    ∀ (os : List Obstacle) (s : Session),
    (processList (obstacleTick hy bx) s os).1.hitNotes = s.hitNotes ∧
    (processList (obstacleTick hy bx) s os).1.totalNotes = s.totalNotes := by
  intro os
  induction os with
  | nil => exact fun s => ⟨rfl, rfl⟩
  | cons a as ih =>
    intro s
    simp only [processList]
    obtain ⟨h1, h2⟩ := obstacleTick_counts hy bx s a
    obtain ⟨h3, h4⟩ := ih (obstacleTick hy bx s a).1
    exact ⟨by rw [h3, h1], by rw [h4, h2]⟩

theorem pendingCount_filter_le (p : SaberBlock → Bool) :
    ∀ bs : List SaberBlock, pendingCount (bs.filter p) ≤ pendingCount bs := by
  intro bs
  induction bs with
  | nil => exact le_refl _
  | cons a as ih =>
    by_cases hp : p a
    · simp only [List.filter_cons, hp, if_pos, pendingCount, List.map_cons,
        List.sum_cons]
      simp only [pendingCount] at ih
      omega
    · simp only [List.filter_cons, Bool.not_eq_true] at *
      rw [if_neg (by simp [hp])]
      simp only [pendingCount, List.map_cons, List.sum_cons] at *
      omega

/-- The accuracy invariant: confirmed hits plus still-pending normal
notes never exceed the number of spawned normal notes. -/
def InvCounts (g : GState) : Prop :=
  g.session.hitNotes + pendingCount g.blocks ≤ g.session.totalNotes

theorem step_preserves_InvCounts (g : GState) (ev : Event)
    (h : InvCounts g) : InvCounts (step g ev) := by
  cases ev with
  | spawnB gx gy c ty dir =>
    show InvCounts (spawnBlock gx gy c ty dir g)
    unfold InvCounts spawnBlock at *
    cases ty <;>
      simp_all [pendingCount, normPending] <;> omega
  | spawnW ty =>
    exact h
  | frame cx cy l r hy bx =>
    show InvCounts (levelTick cx cy l r hy bx g)
    unfold InvCounts levelTick at *
    dsimp only
    obtain ⟨hb1, hb2⟩ :=
      processList_blocks_counts cx cy l r g.blocks g.session
    obtain ⟨ho1, ho2⟩ := processList_obstacles_counts hy bx
      (g.obstacles)
      ((processList (blockTick cx cy l r) g.session g.blocks).1)
    have hfil := pendingCount_filter_le (fun b => !b.remove)
      (processList (blockTick cx cy l r) g.session g.blocks).2
    rw [ho1, ho2, hb1]
    omega

theorem run_preserves_InvCounts (evs : List Event) :
    ∀ g : GState, InvCounts g → InvCounts (run g evs) := by
  induction evs with
  | nil => exact fun g h => h
  | cons e es ih =>
    intro g h
    exact ih (step g e) (step_preserves_InvCounts g e h)

/-- C9: in every reachable state of a session, `hitNotes ≤ totalNotes`
(normal spawns alone increment `totalNotes`, confirmed regular hits alone
increment `hitNotes`, and the hit flag makes each note hittable at most
once — captured by the `InvCounts` invariant); consequently the grading
accuracy `hitNotes/totalNotes` always lies in [0,1] (with `ℚ` division,
`0/0 = 0`, covering the `totalNotes = 0` case as well). -/
theorem accuracy_well_formed (evs : List Event) :
    (run initState evs).session.hitNotes ≤
      (run initState evs).session.totalNotes ∧
    0 ≤ ((run initState evs).session.hitNotes : ℚ) /
        ((run initState evs).session.totalNotes : ℚ) ∧
    ((run initState evs).session.hitNotes : ℚ) /
        ((run initState evs).session.totalNotes : ℚ) ≤ 1 := by
  have hinit : InvCounts initState := by
    show (0 : ℕ) + pendingCount [] ≤ 0
    simp [pendingCount]
  have hinv := run_preserves_InvCounts evs initState hinit
  unfold InvCounts at hinv
  have hle : (run initState evs).session.hitNotes ≤
      (run initState evs).session.totalNotes := by omega
  refine ⟨hle, by positivity, ?_⟩
  rcases Nat.eq_zero_or_pos (run initState evs).session.totalNotes with
    h0 | hpos
  · rw [h0]
    norm_num
  · rw [div_le_one (by exact_mod_cast hpos)]
    exact_mod_cast hle
